import Mathlib

/-
Shallow embedding of the pricetracker repository's core logic.

Conventions used throughout:
- Python floats are modelled as rationals (ℚ); the claims under study are
  arithmetic-level properties of the formulas, not of IEEE rounding.
- A Python dict whose values may be None (such as `last_prices`) is modelled
  as a total function `String → Option ℚ`; "key absent" and "value is None"
  both become `none`, exactly matching the guard
  `if identifier not in self.last_prices or self.last_prices[identifier] is None`.
- SQLite TEXT/DATETIME timestamps compare bytewise, a total order; that order
  is abstracted as ℕ here.
- Fallible effects (network fetches, database commits) are passed in as
  explicit arguments: a fetch result is `Option ℚ` per identifier, and a
  database commit outcome is a `Bool` oracle argument, mirroring the
  try/except blocks that convert every failure into None / False.
-/

namespace PriceTracker

/- Generic pointwise update of a string-keyed map, used for the Python dict
assignments `self.last_prices[identifier] = price` and
`self.price_history[identifier] = ...`. -/
def updateMap {α : Type} (f : String → α) (k : String) (v : α) : String → α :=
  fun s => if s = k then v else f s

/- base_tracker.py, class PriceData: timestamp string, price, and the
keyword-argument metadata bag (numeric-valued in this repository). -/
structure PriceData where
  timestamp : String
  price : ℚ
  extra_data : List (String × ℚ)
deriving DecidableEq, Repr

/- config.py, dataclass TrackerConfig with its default values. -/
structure TrackerConfig where
  alert_threshold_percent : ℚ := 5
  monitoring_interval_seconds : ℤ := 60
  max_price_history : ℕ := 100
  keep_history_count : ℕ := 50

/- base_tracker.py, BaseTracker.check_price_alert (identical logic is
duplicated in main.py CryptoPriceTracker.check_price_alert and
SolanaMemeTracker.check_price_alert): absent baseline never alerts,
otherwise compare |((current - last) / last) * 100| against the threshold. -/
def check_price_alert (alert_threshold_percent : ℚ) (last_prices : String → Option ℚ)
    (identifier : String) (current_price : ℚ) : Bool :=
  match last_prices identifier with
  | none => false
  | some last_price =>
    decide (|(current_price - last_price) / last_price * 100| ≥ alert_threshold_percent)

/- base_tracker.py, BaseTracker.format_price_change, reduced to the signed
percent delta it renders; `none` models the empty string returned when there
is no baseline. -/
def price_change_percent (last_prices : String → Option ℚ)
    (identifier : String) (current_price : ℚ) : Option ℚ :=
  match last_prices identifier with
  | none => none
  | some last_price => some ((current_price - last_price) / last_price * 100)

/- Python list slice `lst[-k:]`: the whole list when k = 0 (since `lst[-0:]`
is `lst[0:]`), otherwise the last k elements. -/
def lastSlice {α : Type} (k : ℕ) (l : List α) : List α :=
  if k = 0 then l else l.drop (l.length - k)

/- base_tracker.py, BaseTracker.update_price_history: append the new
observation, then, if the buffer length exceeds max_price_history, keep only
the last keep_history_count entries (main.py monitor_price inlines the same
logic with the constants 100 and 50). -/
def update_price_history (max_price_history keep_history_count : ℕ)
    (hist : List PriceData) (price_data : PriceData) : List PriceData :=
  if max_price_history < (hist ++ [price_data]).length then
    lastSlice keep_history_count (hist ++ [price_data])
  else
    hist ++ [price_data]

/- TrackerState: the per-identifier mutable state owned by the monitoring
loop (base_tracker.py BaseTracker.__init__): last_prices and price_history. -/
structure TrackerState where
  lastPrices : String → Option ℚ
  history : String → List PriceData

/- One rendered/processed observation of a cycle: identifier, resolved price,
whether the alert fired, and the signed percent delta shown by
format_price_change (none when there was no baseline). -/
structure CycleEvent where
  identifier : String
  price : ℚ
  alertTriggered : Bool
  delta : Option ℚ
deriving DecidableEq, Repr

/- The per-identifier body of the monitoring loop
(base_tracker.py start_monitoring, lines 83-98; main.py monitor_price,
lines 85-104 have the same structure): build the PriceData, append it to the
history buffer, evaluate the alert and the delta against the current
last-known price, and only then update the last-known price. -/
def applyObservation (cfg : TrackerConfig) (ts : String) (σ : TrackerState)
    (identifier : String) (p : ℚ) : TrackerState × CycleEvent :=
  let σ1 : TrackerState :=
    ⟨σ.lastPrices,
     updateMap σ.history identifier
       (update_price_history cfg.max_price_history cfg.keep_history_count
         (σ.history identifier) ⟨ts, p, []⟩)⟩
  let alert := check_price_alert cfg.alert_threshold_percent σ1.lastPrices identifier p
  let delta := price_change_percent σ1.lastPrices identifier p
  (⟨updateMap σ1.lastPrices identifier (some p), σ1.history⟩,
   ⟨identifier, p, alert, delta⟩)

/- The per-cycle iteration over the fetched price map: identifiers whose
price resolved to None are skipped (`continue`), the others are processed in
order by applyObservation. -/
def processPrices (cfg : TrackerConfig) (ts : String) :
    TrackerState → List (String × Option ℚ) → TrackerState × List CycleEvent
  | σ, [] => (σ, [])
  | σ, (_, none) :: rest => processPrices cfg ts σ rest
  | σ, (identifier, some p) :: rest =>
    ((processPrices cfg ts (applyObservation cfg ts σ identifier p).1 rest).1,
     (applyObservation cfg ts σ identifier p).2 ::
       (processPrices cfg ts (applyObservation cfg ts σ identifier p).1 rest).2)

/- Result of one cycle of the monitoring loop: the new tracker state, the
events that were rendered, and whether the cycle was treated as a full fetch
failure (the `continue` branch). -/
structure CycleResult where
  state : TrackerState
  events : List CycleEvent
  fetchFailed : Bool

/- One iteration of the while-loop body of base_tracker.py start_monitoring
(and, identically, main.py monitor_price): if every fetched price is None the
cycle is reported as failed and nothing else happens; otherwise each resolved
identifier is processed in order. -/
def runCycle (cfg : TrackerConfig) (ts : String) (σ : TrackerState)
    (fetch : List (String × Option ℚ)) : CycleResult :=
  if fetch.all (fun pr => pr.2.isNone) then ⟨σ, [], true⟩
  else ⟨(processPrices cfg ts σ fetch).1, (processPrices cfg ts σ fetch).2, false⟩

/- database.py: the persisted row of the price_records table. `id` is the
AUTOINCREMENT primary key, `created_at` the CURRENT_TIMESTAMP column; both
are storage-assigned. Timestamps are stored as text and compared bytewise by
SQLite; that total order is abstracted as ℕ. -/
structure StoredRecord where
  id : ℕ
  symbol : String
  coin_id : String
  price_usd : ℚ
  timestamp : ℕ
  volume_24h : ℚ
  market_cap : ℚ
  price_change_24h : ℚ
  extra_data : List (String × String)
  created_at : ℕ
deriving DecidableEq, Repr

/- database.py, class PriceDatabase: the table contents plus the next
AUTOINCREMENT id. -/
structure PriceDatabase where
  rows : List StoredRecord
  nextId : ℕ
deriving DecidableEq, Repr

/- Strict "older" order on rows as scanned by the idx_coin_timestamp index:
by timestamp, ties by rowid. -/
def recKeyLT (r s : StoredRecord) : Prop :=
  r.timestamp < s.timestamp ∨ (r.timestamp = s.timestamp ∧ r.id < s.id)

instance (r s : StoredRecord) : Decidable (recKeyLT r s) := by
  unfold recKeyLT
  infer_instance

/- Reflexive version of the same order. -/
def recKeyLE (r s : StoredRecord) : Prop :=
  r.timestamp < s.timestamp ∨ (r.timestamp = s.timestamp ∧ r.id ≤ s.id)

instance (r s : StoredRecord) : Decidable (recKeyLE r s) := by
  unfold recKeyLE
  infer_instance

/- The more recent of a row and an optional row, by (timestamp, rowid). -/
def selectBetter (r : StoredRecord) : Option StoredRecord → StoredRecord
  | none => r
  | some s => if recKeyLT r s then s else r

/- The row produced by `SELECT * ... ORDER BY timestamp DESC LIMIT 1`:
SQLite satisfies the ORDER BY with a reverse scan of the
idx_coin_timestamp index, whose entries with equal (coin_id, timestamp) keys
are ordered by rowid, so the row returned is the maximum by
(timestamp, rowid). -/
def selectLatest : List StoredRecord → Option StoredRecord
  | [] => none
  | r :: rs => some (selectBetter r (selectLatest rs))

/- database.py, PriceDatabase.get_latest_price: filter the table to the
requested coin_id, take the most recent row. -/
def get_latest_price (db : PriceDatabase) (coin_id : String) : Option StoredRecord :=
  selectLatest (db.rows.filter (fun r => decide (r.coin_id = coin_id)))

/- database.py, PriceDatabase.insert_price_record. The try/except returns
True on commit and False on any failure; the commit outcome of the
underlying engine is the explicit `ok` argument. volume_24h, market_cap and
price_change_24h come from the keyword arguments (default 0), the remaining
keyword arguments land in extra_data, and created_at is storage-assigned. -/
def insert_price_record (db : PriceDatabase) (ok : Bool) (symbol coin_id : String)
    (price_usd : ℚ) (timestamp : ℕ) (volume_24h market_cap price_change_24h : ℚ)
    (extra_data : List (String × String)) (created_at : ℕ) : Bool × PriceDatabase :=
  if ok then
    (true,
     ⟨db.rows ++ [⟨db.nextId, symbol, coin_id, price_usd, timestamp, volume_24h,
        market_cap, price_change_24h, extra_data, created_at⟩],
      db.nextId + 1⟩)
  else (false, db)

/- btc_db_tracker.py, class BTCDatabaseConfig: the defaults set in its
constructor (interval 60s, threshold 5.0, coin bitcoin, symbol BTC). -/
structure BTCDatabaseConfig where
  alert_threshold_percent : ℚ := 5
  monitoring_interval_seconds : ℤ := 60
  coin_id : String := "bitcoin"
  symbol : String := "BTC"

/- The mutable state of a BTCDatabaseTracker: the inherited last_prices and
price_history dictionaries plus the backing database. -/
structure BTCState where
  lastPrices : String → Option ℚ
  price_history : String → List PriceData
  db : PriceDatabase

/- One line rendered by BTCDatabaseTracker.display_price_info: the price,
the alert flag, and whether the database insert reported success. -/
structure BTCDisplay where
  price : ℚ
  alertTriggered : Bool
  dbSaved : Bool
deriving DecidableEq, Repr

/- btc_db_tracker.py, BTCDatabaseTracker.load_recent_price_from_db, called
from the constructor: seed last_prices[coin_id] from the most recent stored
row, if any. -/
def load_recent_price_from_db (db : PriceDatabase) (coin_id : String)
    (last_prices : String → Option ℚ) : String → Option ℚ :=
  match get_latest_price db coin_id with
  | some rec => updateMap last_prices coin_id (some rec.price_usd)
  | none => last_prices

/- One iteration of the while-loop body of
btc_db_tracker.py BTCDatabaseTracker.start_monitoring: on a failed fetch
nothing happens; otherwise the observation is persisted (outcome `okMain`),
the alert is evaluated against the current last-known price, the line is
displayed with the persistence flag, a triggered alert additionally inserts
a BTC_ALERT row (outcome `okAlert`, handle_alert), and finally the
last-known price is updated. The loop never touches price_history. -/
def btcCycle (cfg : BTCDatabaseConfig) (timestamp alert_timestamp created_at : ℕ)
    (okMain okAlert : Bool) (st : BTCState) (fetched : Option ℚ) :
    BTCState × List BTCDisplay :=
  match fetched with
  | none => (st, [])
  | some current_price =>
    let ins := insert_price_record st.db okMain cfg.symbol cfg.coin_id current_price
      timestamp 0 0 0 [] created_at
    let alert := check_price_alert cfg.alert_threshold_percent st.lastPrices
      cfg.coin_id current_price
    let db2 :=
      if alert then
        (insert_price_record ins.2 okAlert (cfg.symbol ++ "_ALERT") cfg.coin_id
          current_price alert_timestamp 0 0 0
          [("alert_triggered", "True"), ("alert_threshold", "5.0")] created_at).2
      else ins.2
    (⟨updateMap st.lastPrices cfg.coin_id (some current_price), st.price_history, db2⟩,
     [⟨current_price, alert, ins.1⟩])

/- solana_tracker.py / main.py: the dictionary built from a DexScreener pair
(primary source) or synthesized from a Jupiter price (secondary source). -/
structure TokenInfo where
  name : String
  symbol : String
  price_usd : ℚ
  volume_24h : ℚ
  price_change_24h : ℚ
  liquidity : ℚ
deriving DecidableEq, Repr

/- solana_tracker.py, SolanaMemeTracker.fetch_token_data (identical to
main.py SolanaMemeTracker.get_token_data). The already-parsed responses of
the two sources are passed in: `primary` is the DexScreener record (None on
any request/parse failure), `jupiterPrice` the Jupiter price (None on
failure). A primary record with positive price wins; otherwise the Python
truthiness test `if jupiter_price:` accepts the Jupiter price only when it
is non-None and nonzero, and synthesizes a record with zeroed volume,
change and liquidity, taking name and symbol from the cached token_info
entry (`cached`) when present. -/
def fetch_token_data (primary : Option TokenInfo) (jupiterPrice : Option ℚ)
    (cached : Option TokenInfo) : Option TokenInfo :=
  match primary with
  | some token_info =>
    if 0 < token_info.price_usd then some token_info
    else
      match jupiterPrice with
      | some jp =>
        if jp = 0 then none
        else some ⟨(cached.map (fun c => c.name)).getD "Unknown",
          (cached.map (fun c => c.symbol)).getD "UNKNOWN", jp, 0, 0, 0⟩
      | none => none
  | none =>
    match jupiterPrice with
    | some jp =>
      if jp = 0 then none
      else some ⟨(cached.map (fun c => c.name)).getD "Unknown",
        (cached.map (fun c => c.symbol)).getD "UNKNOWN", jp, 0, 0, 0⟩
    | none => none

/- config.py, CoinSymbols.COIN_MAP (also inlined in main.py main): the
accepted coin aliases. -/
def coin_map : String → Option String
  | "btc" => some "bitcoin"
  | "bitcoin" => some "bitcoin"
  | "eth" => some "ethereum"
  | "ethereum" => some "ethereum"
  | "sol" => some "solana"
  | "solana" => some "solana"
  | "bnb" => some "binancecoin"
  | "binancecoin" => some "binancecoin"
  | "xrp" => some "ripple"
  | "ripple" => some "ripple"
  | _ => none

/- The default coin list used throughout main.py and user_interface.py. -/
def default_coins : List String :=
  ["bitcoin", "ethereum", "solana", "binancecoin", "ripple"]

/- config.py, dataclass MainstreamCryptoConfig (history caps inherited from
TrackerConfig). -/
structure MainstreamCryptoConfig where
  coins : List String
  alert_threshold_percent : ℚ
  monitoring_interval_seconds : ℤ
  max_price_history : ℕ
  keep_history_count : ℕ
deriving DecidableEq, Repr

/- config.py, dataclass SolanaMemeConfig. -/
structure SolanaMemeConfig where
  contract_addresses : List String
  alert_threshold_percent : ℚ
  monitoring_interval_seconds : ℤ
  max_price_history : ℕ
  keep_history_count : ℕ
deriving DecidableEq, Repr

/- user_interface.py, UserInterface.setup_mainstream_config, on the
already-read inputs: the comma-separated coin tokens (lowercased and
stripped by the caller), the parsed threshold and the parsed interval.
Unknown coins are skipped; an empty result falls back to the defaults. The
threshold and interval are passed through with no validation of any kind. -/
def setup_mainstream_config (coins_input : List String) (threshold : ℚ)
    (interval : ℤ) : MainstreamCryptoConfig :=
  let coins :=
    if coins_input.isEmpty then default_coins
    else
      let selected := coins_input.filterMap coin_map
      if selected.isEmpty then default_coins else selected
  ⟨coins, threshold, interval, 100, 50⟩

/- user_interface.py, UserInterface.setup_solana_config, on the
already-read inputs: address lines shorter than 32 characters are rejected
during collection, and an empty final list raises
ValueError("No contract addresses provided"); threshold and interval are
passed through unvalidated. -/
def setup_solana_config (address_inputs : List String) (threshold : ℚ)
    (interval : ℤ) : Except String SolanaMemeConfig :=
  let addrs := address_inputs.filter (fun a => decide (32 ≤ a.length))
  if addrs.isEmpty then Except.error "No contract addresses provided"
  else Except.ok ⟨addrs, threshold, interval, 100, 50⟩

/- Length of a Python tail slice `lst[-k:]` for k ≠ 0. -/
lemma lastSlice_length {α : Type} (k : ℕ) (l : List α) (hk : k ≠ 0) :
    (lastSlice k l).length = min k l.length := by
  simp only [lastSlice, hk, if_false, List.length_drop]
  omega

/-- Claim C1: alert evaluation returns false whenever the identifier's
last-known price is absent, and when a last-known price p is present and
nonzero it returns true exactly when |(current - p) / p * 100| is at least
the threshold. -/
theorem c1_alert_evaluation (threshold current : ℚ) (last_prices : String → Option ℚ)
    (identifier : String) :
    (last_prices identifier = none →
      check_price_alert threshold last_prices identifier current = false) ∧
    (∀ p, last_prices identifier = some p → p ≠ 0 →
      (check_price_alert threshold last_prices identifier current = true ↔
        |(current - p) / p * 100| ≥ threshold)) := by
  constructor
  · intro h
    simp [check_price_alert, h]
  · intro p hp _
    simp [check_price_alert, hp]

/-- Witness for C1 at the claim's example: threshold 5.0, previous 100.0;
current 104.9 does not trigger, current 105.0 does, and the triggering
condition is exactly the formula of the claim. -/
theorem c1_alert_evaluation_witness :
    (updateMap (fun _ => (none : Option ℚ)) "bitcoin" (some 100) "bitcoin" = some 100 ∧
      (100 : ℚ) ≠ 0) ∧
    (check_price_alert 5 (updateMap (fun _ => none) "bitcoin" (some 100)) "bitcoin" 105 = true ↔
      |((105 : ℚ) - 100) / 100 * 100| ≥ 5) ∧
    check_price_alert 5 (updateMap (fun _ => none) "bitcoin" (some 100)) "bitcoin" (1049/10)
      = false ∧
    check_price_alert 5 (updateMap (fun _ => none) "bitcoin" (some 100)) "bitcoin" 105 = true :=
  ⟨⟨by decide, by decide⟩,
   (c1_alert_evaluation 5 105 (updateMap (fun _ => none) "bitcoin" (some 100)) "bitcoin").2
     100 (by decide) (by decide),
   by norm_num [check_price_alert, updateMap, abs_of_nonneg],
   by norm_num [check_price_alert, updateMap, abs_of_nonneg]⟩

/-- Counterexample for C2 as stated: with maxHistory = 2 and keepCount = 1
(keepCount < maxHistory) and the buffer at maxHistory entries, a push yields
length keepCount = 1, not keepCount + 1 = 2 — the code appends first and then
truncates the appended buffer to the last keepCount entries. -/
theorem c2_history_overflow_counterexample :
    (update_price_history 2 1 [⟨"t1", 1, []⟩, ⟨"t2", 2, []⟩] ⟨"t3", 3, []⟩).length ≠ 1 + 1 ∧
    (update_price_history 2 1 [⟨"t1", 1, []⟩, ⟨"t2", 2, []⟩] ⟨"t3", 3, []⟩).length = 1 := by
  constructor
  · decide
  · decide

/-- Claim C2 as amended: with 0 < keepCount < maxHistory, a push from a
buffer at maxHistory entries truncates the appended buffer to its most
recent keepCount entries — yielding length keepCount, with the new
observation as the last entry, and the result a suffix of the appended
buffer — and once keepCount ≤ length ≤ maxHistory holds, every push keeps
the length in [keepCount, maxHistory]. -/
theorem c2_history_overflow_amended (maxH keep : ℕ) (hist : List PriceData)
    (pd : PriceData) (hkeep : 0 < keep) (hlt : keep < maxH) :
    (hist.length = maxH →
      (update_price_history maxH keep hist pd).length = keep ∧
      (update_price_history maxH keep hist pd).getLast? = some pd ∧
      (update_price_history maxH keep hist pd) <:+ hist ++ [pd]) ∧
    (keep ≤ hist.length → hist.length ≤ maxH →
      keep ≤ (update_price_history maxH keep hist pd).length ∧
      (update_price_history maxH keep hist pd).length ≤ maxH) := by
  have happ : (hist ++ [pd]).length = hist.length + 1 := by
    simp
  constructor
  · intro hfull
    have hcond : maxH < (hist ++ [pd]).length := by omega
    have hdrop : lastSlice keep (hist ++ [pd]) = (hist ++ [pd]).drop (hist.length + 1 - keep) := by
      simp only [lastSlice, Nat.pos_iff_ne_zero.mp hkeep, if_false, happ]
    refine ⟨?_, ?_, ?_⟩
    · simp only [update_price_history, hcond, if_true]
      rw [lastSlice_length _ _ (Nat.pos_iff_ne_zero.mp hkeep), happ]
      omega
    · simp only [update_price_history, hcond, if_true, hdrop]
      have hle : hist.length + 1 - keep ≤ hist.length := by omega
      rw [List.drop_append_of_le_length hle]
      exact List.getLast?_concat _
    · simp only [update_price_history, hcond, if_true, hdrop]
      exact List.drop_suffix _ _
  · intro hlo hhi
    by_cases hcond : maxH < (hist ++ [pd]).length
    · have hfull : hist.length = maxH := by omega
      simp only [update_price_history, hcond, if_true]
      rw [lastSlice_length _ _ (Nat.pos_iff_ne_zero.mp hkeep), happ]
      omega
    · simp only [update_price_history, hcond, if_false]
      omega

/-- Witness for C2's amended claim at maxHistory = 2, keepCount = 1, buffer
at the cap: the push yields exactly the most recent entry, and the bounds
hold. -/
theorem c2_history_overflow_amended_witness :
    ((0 : ℕ) < 1 ∧ (1 : ℕ) < 2 ∧
      ([⟨"t1", 1, []⟩, ⟨"t2", 2, []⟩] : List PriceData).length = 2) ∧
    ((update_price_history 2 1 [⟨"t1", 1, []⟩, ⟨"t2", 2, []⟩] ⟨"t3", 3, []⟩).length = 1 ∧
      (update_price_history 2 1 [⟨"t1", 1, []⟩, ⟨"t2", 2, []⟩] ⟨"t3", 3, []⟩).getLast?
        = some ⟨"t3", 3, []⟩ ∧
      (update_price_history 2 1 [⟨"t1", 1, []⟩, ⟨"t2", 2, []⟩] ⟨"t3", 3, []⟩) <:+
        [⟨"t1", 1, []⟩, ⟨"t2", 2, []⟩] ++ [⟨"t3", 3, []⟩]) :=
  ⟨⟨by decide, by decide, by decide⟩,
   (c2_history_overflow_amended 2 1 [⟨"t1", 1, []⟩, ⟨"t2", 2, []⟩] ⟨"t3", 3, []⟩
     (by decide) (by decide)).1 (by decide)⟩

/- check_price_alert only reads the last-known price of the identifier it is
asked about. -/
lemma check_price_alert_congr (th : ℚ) (f g : String → Option ℚ) (identifier : String)
    (c : ℚ) (h : f identifier = g identifier) :
    check_price_alert th f identifier c = check_price_alert th g identifier c := by
  unfold check_price_alert
  rw [h]

/- price_change_percent only reads the last-known price of the identifier it
is asked about. -/
lemma price_change_percent_congr (f g : String → Option ℚ) (identifier : String)
    (c : ℚ) (h : f identifier = g identifier) :
    price_change_percent f identifier c = price_change_percent g identifier c := by
  unfold price_change_percent
  rw [h]

/- The state produced by applyObservation changes lastPrices only by the
final per-identifier update. -/
lemma applyObservation_lastPrices (cfg : TrackerConfig) (ts : String) (σ : TrackerState)
    (identifier : String) (p : ℚ) :
    (applyObservation cfg ts σ identifier p).1.lastPrices =
      updateMap σ.lastPrices identifier (some p) := rfl

/- Every event emitted by processPrices carries the alert flag and delta
computed from the pre-cycle last-known prices, as long as the fetched
identifiers are pairwise distinct (they are: Python dict keys). -/
lemma processPrices_events_vs_initial (cfg : TrackerConfig) (ts : String) :
    ∀ (l : List (String × Option ℚ)) (σ σ0 : TrackerState),
      (l.map Prod.fst).Nodup →
      (∀ k ∈ l.map Prod.fst, σ.lastPrices k = σ0.lastPrices k) →
      ∀ ev ∈ (processPrices cfg ts σ l).2,
        ev.alertTriggered =
          check_price_alert cfg.alert_threshold_percent σ0.lastPrices ev.identifier ev.price ∧
        ev.delta = price_change_percent σ0.lastPrices ev.identifier ev.price := by
  intro l
  induction l with
  | nil =>
    intro σ σ0 _ _ ev hev
    simp [processPrices] at hev
  | cons pr rest ih =>
    intro σ σ0 hnd hagree ev hev
    obtain ⟨identifier, op⟩ := pr
    rw [List.map_cons, List.nodup_cons] at hnd
    cases op with
    | none =>
      simp only [processPrices] at hev
      refine ih σ σ0 hnd.2 ?_ ev hev
      intro k hk
      exact hagree k (by simp [hk])
    | some p =>
      simp only [processPrices, List.mem_cons] at hev
      rcases hev with rfl | htail
      · constructor
        · exact check_price_alert_congr _ _ _ _ _ (hagree identifier (by simp))
        · exact price_change_percent_congr _ _ _ _ (hagree identifier (by simp))
      · refine ih (applyObservation cfg ts σ identifier p).1 σ0 hnd.2 ?_ ev htail
        intro k hk
        have hne : k ≠ identifier := fun he => hnd.1 (he ▸ hk)
        rw [applyObservation_lastPrices]
        simp only [updateMap, if_neg hne]
        exact hagree k (by simp [hk])

/-- Claim C3: a cycle in which every identifier resolves to absent performs
no alert evaluation, no history append and no last-price update in the base
monitoring loop (the state is returned unchanged, no events are rendered,
and the cycle is reported as a fetch failure before sleeping), and in the
database-backed BTC loop it additionally performs no persistence (the whole
state, database included, is returned unchanged). -/
theorem c3_full_fetch_failure :
    (∀ (cfg : TrackerConfig) (ts : String) (σ : TrackerState)
        (fetch : List (String × Option ℚ)),
      fetch.all (fun pr => pr.2.isNone) = true →
      runCycle cfg ts σ fetch = ⟨σ, [], true⟩) ∧
    (∀ (cfg : BTCDatabaseConfig) (t ta ca : ℕ) (okMain okAlert : Bool) (st : BTCState),
      btcCycle cfg t ta ca okMain okAlert st none = (st, [])) := by
  constructor
  · intro cfg ts σ fetch h
    simp [runCycle, h]
  · intro cfg t ta ca okMain okAlert st
    rfl

/-- Witness for C3: a concrete two-identifier cycle in which both fetches
fail leaves the tracker state (including the preserved last-known bitcoin
price) untouched and emits no events. -/
theorem c3_full_fetch_failure_witness :
    ([(("bitcoin" : String), (none : Option ℚ)), ("ethereum", none)].all
        (fun pr => pr.2.isNone) = true) ∧
    runCycle {} "2024-01-01 00:00:00"
        ⟨updateMap (fun _ => none) "bitcoin" (some 100), fun _ => []⟩
        [("bitcoin", none), ("ethereum", none)]
      = ⟨⟨updateMap (fun _ => none) "bitcoin" (some 100), fun _ => []⟩, [], true⟩ :=
  ⟨by decide,
   c3_full_fetch_failure.1 {} "2024-01-01 00:00:00"
     ⟨updateMap (fun _ => none) "bitcoin" (some 100), fun _ => []⟩
     [("bitcoin", none), ("ethereum", none)] (by decide)⟩

/-- Claim C4: in every cycle, each rendered event's alert flag and delta are
the ones computed from the pre-cycle last-known prices — the last-known
price update is the final step of each identifier's processing, so no value
updated during the current cycle is ever used as a baseline. -/
theorem c4_alert_against_previous_cycle (cfg : TrackerConfig) (ts : String)
    (σ : TrackerState) (fetch : List (String × Option ℚ))
    (hnd : (fetch.map Prod.fst).Nodup) :
    ∀ ev ∈ (runCycle cfg ts σ fetch).events,
      ev.alertTriggered =
        check_price_alert cfg.alert_threshold_percent σ.lastPrices ev.identifier ev.price ∧
      ev.delta = price_change_percent σ.lastPrices ev.identifier ev.price := by
  intro ev hev
  by_cases h : fetch.all (fun pr => pr.2.isNone) = true
  · simp [runCycle, h] at hev
  · simp only [runCycle, h, if_false] at hev
    exact processPrices_events_vs_initial cfg ts fetch σ σ hnd (fun _ _ => rfl) ev hev

/-- Witness for C4 on a concrete two-coin cycle with distinct identifiers:
every rendered event compares against the pre-cycle baseline. -/
theorem c4_alert_against_previous_cycle_witness :
    (([(("bitcoin" : String), (some (110 : ℚ))), ("ethereum", some 10)].map Prod.fst).Nodup) ∧
    ∀ ev ∈ (runCycle {} "2024-01-01 00:00:00"
        ⟨updateMap (fun _ => none) "bitcoin" (some 100), fun _ => []⟩
        [("bitcoin", some 110), ("ethereum", some 10)]).events,
      ev.alertTriggered = check_price_alert (5 : ℚ)
        (updateMap (fun _ => none) "bitcoin" (some 100)) ev.identifier ev.price ∧
      ev.delta = price_change_percent
        (updateMap (fun _ => none) "bitcoin" (some 100)) ev.identifier ev.price :=
  ⟨by decide,
   c4_alert_against_previous_cycle {} "2024-01-01 00:00:00"
     ⟨updateMap (fun _ => none) "bitcoin" (some 100), fun _ => []⟩
     [("bitcoin", some 110), ("ethereum", some 10)] (by decide)⟩

/- Basic facts about the (timestamp, rowid) order on stored rows. -/
lemma recKeyLE_refl (r : StoredRecord) : recKeyLE r r :=
  Or.inr ⟨rfl, le_refl _⟩

lemma recKeyLT_le {r s : StoredRecord} (h : recKeyLT r s) : recKeyLE r s := by
  unfold recKeyLT at h
  unfold recKeyLE
  omega

lemma recKeyLE_of_not_lt {r s : StoredRecord} (h : ¬ recKeyLT r s) : recKeyLE s r := by
  unfold recKeyLT at h
  unfold recKeyLE
  omega

lemma recKeyLE_trans {a b c : StoredRecord} (h1 : recKeyLE a b) (h2 : recKeyLE b c) :
    recKeyLE a c := by
  unfold recKeyLE at h1 h2 ⊢
  omega

/- selectLatest returns none exactly on the empty row list. -/
lemma selectLatest_eq_none_iff (l : List StoredRecord) :
    selectLatest l = none ↔ l = [] := by
  cases l with
  | nil => simp [selectLatest]
  | cons r rs => simp [selectLatest]

/- selectBetter picks one of its two arguments. -/
lemma selectBetter_eq_or (r : StoredRecord) (o : Option StoredRecord) :
    selectBetter r o = r ∨ ∃ s, o = some s ∧ selectBetter r o = s := by
  cases o with
  | none => exact Or.inl rfl
  | some s =>
    by_cases hlt : recKeyLT r s
    · exact Or.inr ⟨s, rfl, by simp [selectBetter, hlt]⟩
    · exact Or.inl (by simp [selectBetter, hlt])

/- selectBetter is at least its first argument. -/
lemma selectBetter_ge_left (r : StoredRecord) (o : Option StoredRecord) :
    recKeyLE r (selectBetter r o) := by
  cases o with
  | none => exact recKeyLE_refl r
  | some s =>
    by_cases hlt : recKeyLT r s
    · simp only [selectBetter, if_pos hlt]
      exact recKeyLT_le hlt
    · simp only [selectBetter, if_neg hlt]
      exact recKeyLE_refl r

/- selectBetter is at least its second argument. -/
lemma selectBetter_ge_right (r s : StoredRecord) :
    recKeyLE s (selectBetter r (some s)) := by
  by_cases hlt : recKeyLT r s
  · simp only [selectBetter, if_pos hlt]
    exact recKeyLE_refl s
  · simp only [selectBetter, if_neg hlt]
    exact recKeyLE_of_not_lt hlt

/- selectLatest returns a member of the list. -/
lemma selectLatest_mem (l : List StoredRecord) (r : StoredRecord)
    (h : selectLatest l = some r) : r ∈ l := by
  induction l generalizing r with
  | nil => simp [selectLatest] at h
  | cons a rs ih =>
    simp only [selectLatest, Option.some.injEq] at h
    rcases selectBetter_eq_or a (selectLatest rs) with he | ⟨s, hs, he⟩
    · have : r = a := by rw [← h, he]
      simp [this]
    · have : r = s := by rw [← h, he]
      subst this
      exact List.mem_cons_of_mem _ (ih r hs)

/- selectLatest returns a maximum by (timestamp, rowid). -/
lemma selectLatest_isMax (l : List StoredRecord) (r : StoredRecord)
    (h : selectLatest l = some r) : ∀ s ∈ l, recKeyLE s r := by
  induction l generalizing r with
  | nil => simp [selectLatest] at h
  | cons a rs ih =>
    intro s hs
    simp only [selectLatest, Option.some.injEq] at h
    subst h
    rcases List.mem_cons.mp hs with rfl | hs'
    · exact selectBetter_ge_left s _
    · cases hm : selectLatest rs with
      | none =>
        have : rs = [] := (selectLatest_eq_none_iff rs).mp hm
        subst this
        simp at hs'
      | some m =>
        exact recKeyLE_trans (ih m hm s hs') (selectBetter_ge_right a m)

/- Appending a row strictly above every existing row makes it the row that
selectLatest returns. -/
lemma selectLatest_concat (l : List StoredRecord) (a : StoredRecord)
    (h : ∀ s ∈ l, recKeyLT s a) : selectLatest (l ++ [a]) = some a := by
  induction l with
  | nil => simp [selectLatest, selectBetter]
  | cons r rs ih =>
    have hr : recKeyLT r a := h r (List.mem_cons_self _ _)
    have htail : selectLatest (rs ++ [a]) = some a :=
      ih (fun s hs => h s (List.mem_cons_of_mem _ hs))
    have hstep : selectLatest ((r :: rs) ++ [a]) =
        some (selectBetter r (selectLatest (rs ++ [a]))) := rfl
    rw [hstep, htail]
    simp [selectBetter, if_pos hr]

/-- Claim C5: get_latest_price returns none exactly when the table holds no
row for the identifier, and otherwise returns a stored row for that
identifier that every row of the identifier is at or below in the
(timestamp, insertion id) order — most recent by timestamp, ties broken by
insertion id. -/
theorem c5_latest_record (db : PriceDatabase) (coin : String) :
    (get_latest_price db coin = none ↔
      db.rows.filter (fun r => decide (r.coin_id = coin)) = []) ∧
    (∀ r, get_latest_price db coin = some r →
      r ∈ db.rows ∧ r.coin_id = coin ∧
        ∀ s ∈ db.rows, s.coin_id = coin → recKeyLE s r) := by
  constructor
  · exact selectLatest_eq_none_iff _
  · intro r hr
    have hmem := selectLatest_mem _ _ hr
    rw [List.mem_filter] at hmem
    refine ⟨hmem.1, by simpa using hmem.2, ?_⟩
    intro s hs hcoin
    exact selectLatest_isMax _ _ hr s (by simp [List.mem_filter, hs, hcoin])

/-- Witness for C5 on a concrete two-row store whose rows share a timestamp:
the row returned is the one with the larger insertion id, it belongs to the
store, and it dominates every row of the identifier. -/
theorem c5_latest_record_witness :
    get_latest_price
        ⟨[⟨1, "BTC", "bitcoin", 100, 10, 0, 0, 0, [], 0⟩,
          ⟨2, "BTC", "bitcoin", 200, 10, 0, 0, 0, [], 0⟩], 3⟩ "bitcoin"
      = some ⟨2, "BTC", "bitcoin", 200, 10, 0, 0, 0, [], 0⟩ ∧
    (⟨2, "BTC", "bitcoin", 200, 10, 0, 0, 0, [], 0⟩ : StoredRecord) ∈
        ([⟨1, "BTC", "bitcoin", 100, 10, 0, 0, 0, [], 0⟩,
          ⟨2, "BTC", "bitcoin", 200, 10, 0, 0, 0, [], 0⟩] : List StoredRecord) ∧
    (⟨2, "BTC", "bitcoin", 200, 10, 0, 0, 0, [], 0⟩ : StoredRecord).coin_id = "bitcoin" ∧
    ∀ s ∈ ([⟨1, "BTC", "bitcoin", 100, 10, 0, 0, 0, [], 0⟩,
          ⟨2, "BTC", "bitcoin", 200, 10, 0, 0, 0, [], 0⟩] : List StoredRecord),
      s.coin_id = "bitcoin" →
        recKeyLE s ⟨2, "BTC", "bitcoin", 200, 10, 0, 0, 0, [], 0⟩ :=
  ⟨by decide,
   (c5_latest_record
     ⟨[⟨1, "BTC", "bitcoin", 100, 10, 0, 0, 0, [], 0⟩,
       ⟨2, "BTC", "bitcoin", 200, 10, 0, 0, 0, [], 0⟩], 3⟩ "bitcoin").2
     ⟨2, "BTC", "bitcoin", 200, 10, 0, 0, 0, [], 0⟩ (by decide)⟩

/-- Claim C6: inserting a record whose timestamp is at least that of every
stored record for the same identifier, and then fetching the latest record
for that identifier, returns a record equal to the inserted one in all
fields except the storage-assigned id and created_at. -/
theorem c6_insert_latest_roundtrip (db : PriceDatabase) (symbol coin : String)
    (price : ℚ) (ts : ℕ) (vol mcap chg : ℚ) (extra : List (String × String)) (ca : ℕ)
    (hwf : ∀ s ∈ db.rows, s.id < db.nextId)
    (hts : ∀ s ∈ db.rows, s.coin_id = coin → s.timestamp ≤ ts) :
    ∃ out, get_latest_price
        (insert_price_record db true symbol coin price ts vol mcap chg extra ca).2 coin
        = some out ∧
      out.symbol = symbol ∧ out.coin_id = coin ∧ out.price_usd = price ∧
      out.timestamp = ts ∧ out.volume_24h = vol ∧ out.market_cap = mcap ∧
      out.price_change_24h = chg ∧ out.extra_data = extra := by
  refine ⟨⟨db.nextId, symbol, coin, price, ts, vol, mcap, chg, extra, ca⟩,
    ?_, rfl, rfl, rfl, rfl, rfl, rfl, rfl, rfl⟩
  unfold insert_price_record get_latest_price
  simp only [if_pos trivial, List.filter_append]
  rw [show (([⟨db.nextId, symbol, coin, price, ts, vol, mcap, chg, extra, ca⟩] :
      List StoredRecord).filter (fun r => decide (r.coin_id = coin)))
      = [⟨db.nextId, symbol, coin, price, ts, vol, mcap, chg, extra, ca⟩] by simp]
  apply selectLatest_concat
  intro s hs
  rw [List.mem_filter] at hs
  have hid := hwf s hs.1
  have hts' := hts s hs.1 (by simpa using hs.2)
  unfold recKeyLT
  rcases Nat.lt_or_ge s.timestamp ts with hlt | hge
  · exact Or.inl hlt
  · exact Or.inr ⟨Nat.le_antisymm hts' hge, hid⟩

/-- Witness for C6: inserting a bitcoin row with a timestamp at least every
stored bitcoin timestamp into a concrete one-row store and reading back the
latest bitcoin record returns the inserted fields. -/
theorem c6_insert_latest_roundtrip_witness :
    (∀ s ∈ ([⟨1, "BTC", "bitcoin", 100, 3, 0, 0, 0, [], 0⟩] : List StoredRecord),
        s.id < 5) ∧
    (∀ s ∈ ([⟨1, "BTC", "bitcoin", 100, 3, 0, 0, 0, [], 0⟩] : List StoredRecord),
        s.coin_id = "bitcoin" → s.timestamp ≤ 10) ∧
    ∃ out, get_latest_price
        (insert_price_record ⟨[⟨1, "BTC", "bitcoin", 100, 3, 0, 0, 0, [], 0⟩], 5⟩
          true "BTC" "bitcoin" 200 10 7 8 9 [("src", "test")] 11).2 "bitcoin"
        = some out ∧
      out.symbol = "BTC" ∧ out.coin_id = "bitcoin" ∧ out.price_usd = 200 ∧
      out.timestamp = 10 ∧ out.volume_24h = 7 ∧ out.market_cap = 8 ∧
      out.price_change_24h = 9 ∧ out.extra_data = [("src", "test")] :=
  ⟨by decide, by decide,
   c6_insert_latest_roundtrip ⟨[⟨1, "BTC", "bitcoin", 100, 3, 0, 0, 0, [], 0⟩], 5⟩
     "BTC" "bitcoin" 200 10 7 8 9 [("src", "test")] 11 (by decide) (by decide)⟩

/- A failed insert reports False and leaves the table untouched. -/
lemma insert_price_record_fail (db : PriceDatabase) (symbol coin_id : String)
    (price_usd : ℚ) (timestamp : ℕ) (v m c : ℚ) (e : List (String × String)) (ca : ℕ) :
    insert_price_record db false symbol coin_id price_usd timestamp v m c e ca
      = (false, db) := rfl

/-- Counterexample for C7 as stated: in a concrete BTC cycle whose insert
fails, the observation is rendered and the last-known price advances, yet
the in-memory history buffer is NOT appended to — the database-backed loop
never updates price_history at all, so the claim's "history is updated"
conjunct is false. -/
theorem c7_insert_best_effort_counterexample :
    (btcCycle {} 0 0 0 false false
        ⟨fun _ => none, fun _ => [], ⟨[], 1⟩⟩ (some 101)).2 ≠ [] ∧
    (btcCycle {} 0 0 0 false false
        ⟨fun _ => none, fun _ => [], ⟨[], 1⟩⟩ (some 101)).1.lastPrices "bitcoin"
      = some 101 ∧
    (btcCycle {} 0 0 0 false false
        ⟨fun _ => none, fun _ => [], ⟨[], 1⟩⟩ (some 101)).1.price_history "bitcoin"
      = [] := by
  refine ⟨by decide, by decide, by decide⟩

/-- Claim C7 as amended: insert never raises — it returns true when the row
is committed and false on any underlying failure, leaving the table
untouched — and on a false return the BTC monitoring cycle still proceeds:
the observation is rendered with the persistence-failure indicator, the
last-known price advances, and (the in-memory history being untouched by
this loop) no state is lost; with the alert insert also failing, nothing is
persisted. -/
theorem c7_insert_best_effort_amended :
    (∀ (db : PriceDatabase) (symbol coin : String) (price : ℚ) (ts : ℕ)
        (vol mcap chg : ℚ) (extra : List (String × String)) (ca : ℕ),
      (insert_price_record db true symbol coin price ts vol mcap chg extra ca).1 = true ∧
      (insert_price_record db false symbol coin price ts vol mcap chg extra ca).1 = false ∧
      (insert_price_record db false symbol coin price ts vol mcap chg extra ca).2 = db) ∧
    (∀ (cfg : BTCDatabaseConfig) (t ta ca : ℕ) (st : BTCState) (c : ℚ),
      (btcCycle cfg t ta ca false false st (some c)).2 =
        [⟨c, check_price_alert cfg.alert_threshold_percent st.lastPrices cfg.coin_id c,
          false⟩] ∧
      (btcCycle cfg t ta ca false false st (some c)).1.lastPrices cfg.coin_id = some c ∧
      (btcCycle cfg t ta ca false false st (some c)).1.price_history = st.price_history ∧
      (btcCycle cfg t ta ca false false st (some c)).1.db = st.db) := by
  constructor
  · intro db symbol coin price ts vol mcap chg extra ca
    exact ⟨rfl, rfl, rfl⟩
  · intro cfg t ta ca st c
    cases halert : check_price_alert cfg.alert_threshold_percent st.lastPrices cfg.coin_id c <;>
      simp [btcCycle, insert_price_record_fail, halert, updateMap]

/-- Counterexample for C8 as stated: with the primary source reporting price
0 and the secondary source succeeding with price 0, the code resolves to no
record at all (the Python truthiness test `if jupiter_price:` rejects 0.0),
while the claim requires the resolved price to be the secondary's price. -/
theorem c8_fallback_counterexample :
    fetch_token_data (some ⟨"Zed", "ZED", 0, 5, 6, 7⟩) (some 0) none = none := by
  norm_num [fetch_token_data]

/-- Claim C8 as amended: for every contract address, if the primary source
returns a missing or non-positive price and the secondary source succeeds
with a NONZERO price, the resolved record carries the secondary's price with
volume, 24h change and liquidity all zeroed; if the primary returns a
positive price, the primary record is used. -/
theorem c8_fallback_amended :
    (∀ (primary : Option TokenInfo) (jp : ℚ) (cached : Option TokenInfo),
      (primary = none ∨ ∃ ti, primary = some ti ∧ ti.price_usd ≤ 0) →
      jp ≠ 0 →
      ∃ out, fetch_token_data primary (some jp) cached = some out ∧
        out.price_usd = jp ∧ out.volume_24h = 0 ∧ out.price_change_24h = 0 ∧
        out.liquidity = 0) ∧
    (∀ (ti : TokenInfo) (jupiterPrice : Option ℚ) (cached : Option TokenInfo),
      0 < ti.price_usd → fetch_token_data (some ti) jupiterPrice cached = some ti) := by
  constructor
  · intro primary jp cached hprim hjp
    rcases hprim with rfl | ⟨ti, rfl, hle⟩
    · exact ⟨⟨(cached.map (fun x => x.name)).getD "Unknown",
        (cached.map (fun x => x.symbol)).getD "UNKNOWN", jp, 0, 0, 0⟩,
        by simp [fetch_token_data, hjp], rfl, rfl, rfl, rfl⟩
    · exact ⟨⟨(cached.map (fun x => x.name)).getD "Unknown",
        (cached.map (fun x => x.symbol)).getD "UNKNOWN", jp, 0, 0, 0⟩,
        by simp [fetch_token_data, hjp, not_lt.mpr hle], rfl, rfl, rfl, rfl⟩
  · intro ti jupiterPrice cached hpos
    simp [fetch_token_data, hpos]

/-- Witness for C8's amended claim at the claim's example: primary price 0,
secondary price 42.5 — the resolved price is 42.5 with all auxiliary fields
zeroed (even though the primary record's auxiliary fields were nonzero). -/
theorem c8_fallback_amended_witness :
    ((some (⟨"Zed", "ZED", 0, 5, 6, 7⟩ : TokenInfo) = none ∨
        ∃ ti, some (⟨"Zed", "ZED", 0, 5, 6, 7⟩ : TokenInfo) = some ti ∧ ti.price_usd ≤ 0) ∧
      (85 / 2 : ℚ) ≠ 0) ∧
    ∃ out, fetch_token_data (some ⟨"Zed", "ZED", 0, 5, 6, 7⟩) (some (85 / 2)) none
        = some out ∧
      out.price_usd = 85 / 2 ∧ out.volume_24h = 0 ∧ out.price_change_24h = 0 ∧
      out.liquidity = 0 :=
  ⟨⟨Or.inr ⟨⟨"Zed", "ZED", 0, 5, 6, 7⟩, rfl, by norm_num⟩, by norm_num⟩,
   c8_fallback_amended.1 (some ⟨"Zed", "ZED", 0, 5, 6, 7⟩) (85 / 2) none
     (Or.inr ⟨⟨"Zed", "ZED", 0, 5, 6, 7⟩, rfl, by norm_num⟩) (by norm_num)⟩

/-- Counterexample for C9 as stated: a configuration with the non-positive
alert threshold -5 is accepted by the mainstream setup path — it produces a
normal configuration (with the default coin set) instead of failing fast, so
positive-number validation does not happen. -/
theorem c9_validation_counterexample :
    (setup_mainstream_config [] (-5) 60).alert_threshold_percent ≤ 0 ∧
    (setup_mainstream_config [] (-5) 60).coins = default_coins := by
  constructor
  · norm_num [setup_mainstream_config]
  · rfl

/-- Claim C9 as amended: only the identifier set is validated before the
loop starts — the Solana setup fails fast with the descriptive error
"No contract addresses provided" when no valid (at least 32 characters)
address is supplied, and the mainstream coin list is never empty (defaults
are substituted) — while the numeric values are passed through with no
positivity check at all: the produced configuration carries exactly the
parsed threshold and interval, whatever their sign. -/
theorem c9_validation_amended :
    (∀ (address_inputs : List String) (t : ℚ) (i : ℤ),
      (address_inputs.filter (fun a => decide (32 ≤ a.length))).isEmpty = true →
      setup_solana_config address_inputs t i
        = Except.error "No contract addresses provided") ∧
    (∀ (coins_input : List String) (t : ℚ) (i : ℤ),
      (setup_mainstream_config coins_input t i).alert_threshold_percent = t ∧
      (setup_mainstream_config coins_input t i).monitoring_interval_seconds = i ∧
      (setup_mainstream_config coins_input t i).coins ≠ []) := by
  constructor
  · intro ai t i h
    simp [setup_solana_config, h]
  · intro ci t i
    refine ⟨rfl, rfl, ?_⟩
    simp only [setup_mainstream_config]
    by_cases h1 : ci.isEmpty
    · simp [h1, default_coins]
    · by_cases h2 : (ci.filterMap coin_map).isEmpty
      · simp [h1, h2, default_coins]
      · simp only [h1, h2, if_false, Bool.false_eq_true]
        intro he
        rw [he] at h2
        simp at h2

/-- Witness for C9's amended claim: an address list whose sole entry is
shorter than 32 characters makes the Solana setup fail fast with the
descriptive error. -/
theorem c9_validation_amended_witness :
    ((["short"].filter (fun a => decide (32 ≤ a.length))).isEmpty = true) ∧
    setup_solana_config ["short"] 10 30
      = Except.error "No contract addresses provided" :=
  ⟨by decide, c9_validation_amended.1 ["short"] 10 30 (by decide)⟩

/-- Claim C10: when the backing database holds a record for the tracked
coin, construction seeds the coin's last-known price with the latest stored
price_usd, so the very first observation of a new session is compared
against the persisted baseline and (for a nonzero baseline) can trigger an
alert — the no-baseline state does not survive a restart. -/
theorem c10_db_seeded_baseline (db : PriceDatabase) (r : StoredRecord)
    (h : get_latest_price db "bitcoin" = some r) (hp : r.price_usd ≠ 0) :
    load_recent_price_from_db db "bitcoin" (fun _ => none) "bitcoin"
      = some r.price_usd ∧
    check_price_alert 5 (load_recent_price_from_db db "bitcoin" (fun _ => none))
      "bitcoin" (2 * r.price_usd) = true := by
  have hload : load_recent_price_from_db db "bitcoin" (fun _ => none) =
      updateMap (fun _ => none) "bitcoin" (some r.price_usd) := by
    unfold load_recent_price_from_db
    rw [h]
  constructor
  · rw [hload]
    simp [updateMap]
  · rw [hload]
    have hlook : updateMap (fun _ => (none : Option ℚ)) "bitcoin" (some r.price_usd)
        "bitcoin" = some r.price_usd := by simp [updateMap]
    unfold check_price_alert
    rw [hlook]
    show decide (|(2 * r.price_usd - r.price_usd) / r.price_usd * 100| ≥ 5) = true
    have h2 : (2 * r.price_usd - r.price_usd) / r.price_usd * 100 = 100 := by
      field_simp
      ring
    simp only [decide_eq_true_eq, h2]
    norm_num

/-- Witness for C10 on a concrete one-row database: the session starts with
the persisted price 100 as baseline, and a doubled price triggers. -/
theorem c10_db_seeded_baseline_witness :
    get_latest_price ⟨[⟨1, "BTC", "bitcoin", 100, 3, 0, 0, 0, [], 0⟩], 2⟩ "bitcoin"
      = some ⟨1, "BTC", "bitcoin", 100, 3, 0, 0, 0, [], 0⟩ ∧
    (⟨1, "BTC", "bitcoin", 100, 3, 0, 0, 0, [], 0⟩ : StoredRecord).price_usd ≠ 0 ∧
    (load_recent_price_from_db ⟨[⟨1, "BTC", "bitcoin", 100, 3, 0, 0, 0, [], 0⟩], 2⟩
        "bitcoin" (fun _ => none) "bitcoin"
      = some (⟨1, "BTC", "bitcoin", 100, 3, 0, 0, 0, [], 0⟩ : StoredRecord).price_usd ∧
     check_price_alert 5
       (load_recent_price_from_db ⟨[⟨1, "BTC", "bitcoin", 100, 3, 0, 0, 0, [], 0⟩], 2⟩
         "bitcoin" (fun _ => none)) "bitcoin"
       (2 * (⟨1, "BTC", "bitcoin", 100, 3, 0, 0, 0, [], 0⟩ : StoredRecord).price_usd)
       = true) :=
  ⟨by decide, by norm_num,
   c10_db_seeded_baseline ⟨[⟨1, "BTC", "bitcoin", 100, 3, 0, 0, 0, [], 0⟩], 2⟩
     ⟨1, "BTC", "bitcoin", 100, 3, 0, 0, 0, [], 0⟩ (by decide) (by norm_num)⟩

end PriceTracker
